import Mathlib

/-!
Verification development for the labelImg annotation tool
(src/labelImg/labelImg.py).  The definitions below are a shallow
embedding of the annotation-state core of the program: the
shape/list-item store, save and load paths, the format cycle, the class
visibility filter, the copy/paste clipboard, the YOLO invalid-class
auto-clean, and go-to-image navigation.  Code that lives in the libs
package (canvas, shape, labelFile, yolo reader) is not part of the
sources at hand; where such code decides a property it is modelled from
the specification and marked as such in its doc comment.
-/

set_option linter.unusedVariables false
set_option linter.unusedSectionVars false

namespace LabelImgProof

/-! ## Generic insertion-ordered dictionary (Python dict semantics)

Python dictionaries are insertion ordered with unique keys.  We model
them as association lists: lookup finds the first (hence only) entry,
assignment replaces in place or appends, deletion removes the entry. -/

section AssocDict

variable {α β : Type} [DecidableEq α]

/-- `d[k]` lookup: first entry whose key is `k`. -/
def alookup : List (α × β) → α → Option β
  | [], _ => none
  | (k, v) :: rest, a => if k = a then some v else alookup rest a

/-- `d[k] = v`: replace in place if the key is present, else append. -/
def ainsert : List (α × β) → α → β → List (α × β)
  | [], a, b => [(a, b)]
  | (k, v) :: rest, a, b =>
    if k = a then (a, b) :: rest else (k, v) :: ainsert rest a b

/-- `del d[k]`: drop the (unique) entry with key `k`. -/
def aerase : List (α × β) → α → List (α × β)
  | [], _ => []
  | (k, v) :: rest, a => if k = a then rest else (k, v) :: aerase rest a

/-- The keys of the dictionary, in insertion order. -/
def akeys (d : List (α × β)) : List α := d.map Prod.fst

end AssocDict

/-- Remove the first occurrence of `a`, as `QListWidget.takeItem(row(item))`
removes the row holding `item`. -/
def remove_first : List Nat → Nat → List Nat
  | [], _ => []
  | x :: rest, a => if x = a then rest else x :: remove_first rest a

/-! ## Annotation store: the shape/list-item bijection

From `MainWindow.add_label`, `MainWindow.remove_label`,
`MainWindow.load_labels`, `MainWindow.delete_selected_shape` and
`MainWindow.paste_selected_boxes` in src/labelImg/labelImg.py.  Shapes
and list items are Python objects; we model their identities as natural
numbers.  The store holds the two widget-keyed dictionaries
`items_to_shapes` and `shapes_to_items`, the label-list rows, and the
canvas shape list. -/

namespace Store

structure LabelStore where
  items_to_shapes : List (Nat × Nat)
  shapes_to_items : List (Nat × Nat)
  label_list : List Nat
  canvas_shapes : List Nat
deriving DecidableEq, Repr

/-- `MainWindow.add_label` (src lines 985-1001): registers a freshly
created list item for the shape in both dictionaries and appends the
item to the label list.  Colors, check state and the visibility-class
list are UI attributes outside the store model. -/
def add_label (st : LabelStore) (shape item : Nat) : LabelStore :=
  { st with
    items_to_shapes := ainsert st.items_to_shapes item shape
    shapes_to_items := ainsert st.shapes_to_items shape item
    label_list := st.label_list ++ [item] }

/-- `MainWindow.remove_label` (src lines 1003-1011): returns unchanged
on `None`; otherwise looks the shape up (`self.shapes_to_items[shape]`
raises `KeyError` when absent, modelled as `Except.error`), removes the
row, and deletes both dictionary entries (`del` on a missing key also
raises). -/
def remove_label (st : LabelStore) (shape : Option Nat) : Except Unit LabelStore :=
  match shape with
  | none => .ok st
  | some s =>
    match alookup st.shapes_to_items s with
    | none => .error ()
    | some item =>
      match alookup st.items_to_shapes item with
      | none => .error ()
      | some _ =>
        .ok { st with
              items_to_shapes := aerase st.items_to_shapes item
              shapes_to_items := aerase st.shapes_to_items s
              label_list := remove_first st.label_list item }

/-- The add_label loop of `MainWindow.load_labels` (src lines
1013-1053) and of `MainWindow.paste_selected_boxes` (src lines
2126-2127): each loaded or pasted shape is registered with a fresh list
item. -/
def add_labels (st : LabelStore) (pairs : List (Nat × Nat)) : LabelStore :=
  pairs.foldl (fun acc p => add_label acc p.1 p.2) st

/-- The deletion loop of `MainWindow.delete_selected_shape` (src lines
1842-1851): every selected shape still on the canvas is removed from
the canvas list and then from the store. -/
def delete_shapes_loop : LabelStore → List Nat → Except Unit LabelStore
  | st, [] => .ok st
  | st, s :: rest =>
    if s ∈ st.canvas_shapes then
      match remove_label { st with canvas_shapes := st.canvas_shapes.erase s } (some s) with
      | .error e => .error e
      | .ok st2 => delete_shapes_loop st2 rest
    else delete_shapes_loop st rest

/-- One store operation, as performed by the store call sites named in
the spec: direct add, direct remove (possibly of the canvas selection,
which may be `None`), the load_labels loop, the selected-shape deletion
loop, and the paste registration loop. -/
inductive StoreOp where
  | addLabel (shape item : Nat)
  | removeLabel (shape : Option Nat)
  | loadLabels (pairs : List (Nat × Nat))
  | deleteSelected (selected : List Nat)
  | pasteBoxes (pairs : List (Nat × Nat))
deriving Repr

/-- Effect of a store operation on the store, mirroring the source.
`loadLabels` replaces the canvas contents (`canvas.load_shapes`);
`pasteBoxes` appends the pasted shapes to the canvas. -/
def applyOp (st : LabelStore) : StoreOp → Except Unit LabelStore
  | .addLabel s i => .ok (add_label st s i)
  | .removeLabel osh => remove_label st osh
  | .loadLabels ps =>
    .ok { add_labels st ps with canvas_shapes := ps.map Prod.fst }
  | .deleteSelected sel => delete_shapes_loop st sel
  | .pasteBoxes ps =>
    .ok { add_labels st ps with
          canvas_shapes := st.canvas_shapes ++ ps.map Prod.fst }

/-- Freshness of a run of add_label calls: in Python every
`HashableQListWidgetItem(...)` is a newly allocated object and every
added shape is newly created (drawn, loaded, copied or pasted), so
neither identity is registered yet when `add_label` runs. -/
def FreshAdds : LabelStore → List (Nat × Nat) → Prop
  | _, [] => True
  | st, (s, i) :: rest =>
    alookup st.shapes_to_items s = none ∧
    alookup st.items_to_shapes i = none ∧
    FreshAdds (add_label st s i) rest

/-- Freshness side condition of an operation. -/
def OpFresh (st : LabelStore) : StoreOp → Prop
  | .addLabel s i =>
    alookup st.shapes_to_items s = none ∧ alookup st.items_to_shapes i = none
  | .removeLabel _ => True
  | .loadLabels ps => FreshAdds st ps
  | .deleteSelected _ => True
  | .pasteBoxes ps => FreshAdds st ps

/-- The store invariant: the two dictionaries have unique keys, are
mutually inverse, and the label-list rows are exactly the registered
items in order. -/
def Inv (st : LabelStore) : Prop :=
  (akeys st.items_to_shapes).Nodup ∧
  (akeys st.shapes_to_items).Nodup ∧
  (∀ i s, alookup st.items_to_shapes i = some s ↔
          alookup st.shapes_to_items s = some i) ∧
  st.label_list = akeys st.items_to_shapes

end Store

/-! ## Saving

From `MainWindow.save_labels` (src lines 1059-1098) and
`MainWindow._save_file` (src lines 1776-1780).  The codec serialization
call (`LabelFile.save_*`, in the libs package) either returns or raises
`LabelFileError`; its outcome enters the model as an `Except` value. -/

namespace Saving

structure SaveState where
  dirty : Bool
  messages : List String
deriving DecidableEq, Repr

/-- `MainWindow.set_dirty` (src lines 697-699). -/
def set_dirty (st : SaveState) : SaveState := { st with dirty := true }

/-- `MainWindow.set_clean` (src lines 701-704). -/
def set_clean (st : SaveState) : SaveState := { st with dirty := false }

/-- `MainWindow.error_message` (src lines 1825-1827): shows a critical
message box; modelled as recording the message. -/
def error_message (st : SaveState) (title msg : String) : SaveState :=
  { st with messages := st.messages ++ [title ++ ": " ++ msg] }

/-- `MainWindow.save_labels` (src lines 1059-1098): serializes the
current shapes through the codec of the active format; on
`LabelFileError` it reports the error and returns `False`, on success
it returns `True`.  The codec outcome is the `codec` argument. -/
def save_labels (st : SaveState) (codec : Except String Unit) : SaveState × Bool :=
  match codec with
  | .ok _ => (st, true)
  | .error e => (error_message st "Error saving label data" e, false)

/-- `MainWindow._save_file` (src lines 1776-1780): when the path is
non-empty and `save_labels` succeeded, clears the dirty flag. -/
def save_file_inner (st : SaveState) (path : String)
    (codec : Except String Unit) : SaveState :=
  if path = "" then st
  else
    match save_labels st codec with
    | (st2, true) => set_clean st2
    | (st2, false) => st2

end Saving

/-! ## Format cycle

From `MainWindow.set_format` (src lines 630-647) and
`MainWindow.change_format` (src lines 649-658). -/

namespace Formats

inductive LabelFileFormat where
  | pascal_voc
  | yolo
  | create_ml
deriving DecidableEq, Repr

structure FormatState where
  label_file_format : LabelFileFormat
  suffix : String
  dirty : Bool
  canvas_shapes : List Nat
  saved_files : List (String × String)
deriving DecidableEq, Repr

/-- `MainWindow.set_format` (src lines 630-647): selects the codec for
future saves and the matching file suffix (`LabelFile.suffix`). -/
def set_format (st : FormatState) (save_format : String) : FormatState :=
  if save_format = "PascalVOC" then
    { st with label_file_format := .pascal_voc, suffix := ".xml" }
  else if save_format = "YOLO" then
    { st with label_file_format := .yolo, suffix := ".txt" }
  else if save_format = "CreateML" then
    { st with label_file_format := .create_ml, suffix := ".json" }
  else st

/-- `MainWindow.change_format` (src lines 649-658): steps to the next
format of the cycle and marks the session dirty. -/
def change_format (st : FormatState) : FormatState :=
  let st2 :=
    match st.label_file_format with
    | .pascal_voc => set_format st "YOLO"
    | .yolo => set_format st "CreateML"
    | .create_ml => set_format st "PascalVOC"
  { st2 with dirty := true }

/-- The successor in the fixed cycle PascalVOC, YOLO, CreateML. -/
def next_format : LabelFileFormat → LabelFileFormat
  | .pascal_voc => .yolo
  | .yolo => .create_ml
  | .create_ml => .pascal_voc

/-- The file suffix belonging to each format. -/
def suffix_of : LabelFileFormat → String
  | .pascal_voc => ".xml"
  | .yolo => ".txt"
  | .create_ml => ".json"

end Formats

/-! ## Class visibility filter

From `MainWindow.class_visibility_changed` (src lines 902-939).  The
visibility rows carry the class name in their user data; the empty
class name is the Show All sentinel.  Every label row shows the label
text of its shape. -/

namespace Vis

structure VisItem where
  class_name : String
  checked : Bool
deriving DecidableEq, Repr

structure CanvasShape where
  sid : Nat
  label : String
  visible : Bool
deriving DecidableEq, Repr

structure VisState where
  class_visibility_list : List VisItem
  label_items : List (String × Option Nat)
  canvas_shapes : List CanvasShape
deriving DecidableEq, Repr

/-- The collection loop of `class_visibility_changed` (src lines
905-915): walks the visibility rows, gathers the checked class names,
and stops with `show_all` as soon as the checked Show All sentinel is
met. -/
def collect_filter : List VisItem → Bool × List String
  | [] => (false, [])
  | v :: rest =>
    if v.checked then
      if v.class_name = "" then (true, [])
      else
        let r := collect_filter rest
        (r.1, v.class_name :: r.2)
    else collect_filter rest

/-- Modelled from the spec: `canvas.set_shape_visible` lives in
libs/canvas.py, which is not among the sources; per the spec the
visibility filter assigns the per-shape `visible` flag without touching
shape membership. -/
def set_shape_visible (shapes : List CanvasShape) (sid : Nat) (vis : Bool) :
    List CanvasShape :=
  shapes.map fun sh => if sh.sid = sid then { sh with visible := vis } else sh

/-- One iteration of the label-row loop of `class_visibility_changed`
(src lines 918-937): a row mapped to a shape updates that shape with
`show_all or text in selected_classes`. -/
def vis_step (show_all : Bool) (selected : List String)
    (cs : List CanvasShape) (row : String × Option Nat) : List CanvasShape :=
  match row.2 with
  | none => cs
  | some sid => set_shape_visible cs sid (show_all || selected.contains row.1)

/-- `MainWindow.class_visibility_changed` (src lines 902-939). -/
def class_visibility_changed (st : VisState) : VisState :=
  let r := collect_filter st.class_visibility_list
  { st with
    canvas_shapes := st.label_items.foldl (vis_step r.1 r.2) st.canvas_shapes }

/-- Sequential application of the row updates to one shape; used to
state what the fold computes. -/
def apply_rows (show_all : Bool) (selected : List String) :
    List (String × Option Nat) → CanvasShape → CanvasShape
  | [], sh => sh
  | row :: rest, sh =>
    match row.2 with
    | none => apply_rows show_all selected rest sh
    | some sid =>
      apply_rows show_all selected rest
        (if sh.sid = sid then
          { sh with visible := show_all || selected.contains row.1 }
         else sh)

/-- Does some row target the given shape id. -/
def rows_match (rows : List (String × Option Nat)) (sid : Nat) : Bool :=
  rows.any fun row => row.2 = some sid

/-- The class names of the checked visibility rows. -/
def checked_names (l : List VisItem) : List String :=
  (l.filter fun v => v.checked).map fun v => v.class_name

end Vis

/-! ## Clipboard copy and paste

From `MainWindow.copy_selected_boxes` (src lines 2096-2105) and
`MainWindow.paste_selected_boxes` (src lines 2107-2140).  The canvas
paste primitive lives in libs/canvas.py, which is not among the
sources, and is modelled from the spec. -/

namespace Clip

/-- A detached box: label plus axis-aligned bounding box in pixels. -/
structure BShape where
  label : String
  xmin : Int
  ymin : Int
  xmax : Int
  ymax : Int
deriving DecidableEq, Repr

/-- Modelled from the spec: the fixed pixel offset applied on
same-image paste (libs/canvas.py is not among the sources). -/
def PASTE_OFFSET : Int := 10

/-- Modelled from the spec: the small tolerance of the duplicate
check (libs/canvas.py is not among the sources). -/
def DUP_TOLERANCE : Int := 1

/-- Modelled from the spec: two boxes agree within the duplicate
tolerance. -/
def near_box (a b : BShape) : Bool :=
  (a.xmin - b.xmin).natAbs ≤ DUP_TOLERANCE.natAbs &&
  (a.ymin - b.ymin).natAbs ≤ DUP_TOLERANCE.natAbs &&
  (a.xmax - b.xmax).natAbs ≤ DUP_TOLERANCE.natAbs &&
  (a.ymax - b.ymax).natAbs ≤ DUP_TOLERANCE.natAbs

/-- Modelled from the spec: an entry is a duplicate when some existing
shape has the same label and a bounding box within tolerance. -/
def is_duplicate (existing : List BShape) (s : BShape) : Bool :=
  existing.any fun e => e.label = s.label && near_box e s

/-- Modelled from the spec: the fixed positional offset of a
same-image paste. -/
def offset_shape (s : BShape) : BShape :=
  { s with
    xmin := s.xmin + PASTE_OFFSET
    ymin := s.ymin + PASTE_OFFSET
    xmax := s.xmax + PASTE_OFFSET
    ymax := s.ymax + PASTE_OFFSET }

/-- Modelled from the spec: `canvas.paste_shapes(clipboard,
check_duplicates, apply_offset)` of libs/canvas.py, which is not among
the sources.  Per spec section 4.4, with `apply_offset` every entry is
offset and nothing is suppressed; with `check_duplicates` an entry
matching an existing shape (same label, box within tolerance) is
skipped, the rest paste at their original coordinates. -/
def paste_shapes (canvas clipboard : List BShape)
    (check_duplicates apply_offset : Bool) : List BShape :=
  clipboard.filterMap fun s =>
    if check_duplicates && is_duplicate canvas s then none
    else some (if apply_offset then offset_shape s else s)

structure PasteState where
  clipboard : List BShape
  clipboard_source_image : Option String
  file_path : Option String
  canvas_shapes : List BShape
  dirty : Bool
  status : String
deriving DecidableEq, Repr

/-- `MainWindow.paste_selected_boxes` (src lines 2107-2140): decides
same-image versus cross-image, pastes through the canvas, registers
the pasted shapes, refreshes the clipboard on a non-empty same-image
paste, marks dirty and reports the skipped-duplicate count. -/
def paste_selected_boxes (st : PasteState) : PasteState :=
  if st.clipboard = [] then { st with status := "Clipboard is empty" }
  else
    let is_same_image : Bool := st.clipboard_source_image == st.file_path
    let clipboard_count := st.clipboard.length
    let pasted := paste_shapes st.canvas_shapes st.clipboard
      (!is_same_image) is_same_image
    let st2 := { st with canvas_shapes := st.canvas_shapes ++ pasted }
    let st3 :=
      if is_same_image && !pasted.isEmpty then { st2 with clipboard := pasted }
      else st2
    let skipped := clipboard_count - pasted.length
    { st3 with
      dirty := true
      status :=
        if skipped > 0 then
          "Pasted " ++ toString pasted.length ++ " box(es), skipped " ++
            toString skipped ++ " duplicate(s)"
        else "Pasted " ++ toString pasted.length ++ " box(es)" }

end Clip

/-! ## YOLO invalid-class auto-clean

From `MainWindow.load_yolo_txt_by_filename` (src lines 2035-2068).
The reader itself (`YoloReader`, libs/yolo_io.py) is not among the
sources and is modelled from the spec; normalized float coordinates
are modelled as exact rationals. -/

namespace Yolo

/-- One line of a YOLO annotation file: class index and normalized
center/extent coordinates. -/
structure YoloLine where
  classIndex : Int
  cx : ℚ
  cy : ℚ
  w : ℚ
  h : ℚ
deriving DecidableEq, Repr

structure YoloFile where
  classes : List String
  lines : List YoloLine
deriving DecidableEq, Repr

/-- Modelled from the spec: a line is valid when its class index lies
in `[0, len(classes))`. -/
def valid_line (classes : List String) (l : YoloLine) : Bool :=
  0 ≤ l.classIndex && l.classIndex < (classes.length : Int)

/-- An in-memory shape produced by the reader: resolved label plus the
box coordinates. -/
structure YShape where
  label : String
  cx : ℚ
  cy : ℚ
  w : ℚ
  h : ℚ
deriving DecidableEq, Repr

/-- Modelled from the spec: `YoloReader.get_shapes` (libs/yolo_io.py is
not among the sources) resolves each valid line through the class list
and drops every line whose class index is out of range. -/
def get_shapes (f : YoloFile) : List YShape :=
  f.lines.filterMap fun l =>
    if valid_line f.classes l then
      some ⟨f.classes.getD l.classIndex.toNat "", l.cx, l.cy, l.w, l.h⟩
    else none

/-- Count one more occurrence of the key in an insertion-ordered
counter dictionary. -/
def bump (d : List (Int × Nat)) (k : Int) : List (Int × Nat) :=
  match alookup d k with
  | some n => ainsert d k (n + 1)
  | none => d ++ [(k, 1)]

/-- Modelled from the spec: `YoloReader.invalid_classes` counts the
dropped lines per offending class index. -/
def invalid_classes (f : YoloFile) : List (Int × Nat) :=
  f.lines.foldl
    (fun d l => if valid_line f.classes l then d else bump d l.classIndex) []

/-- The total reported by `load_yolo_txt_by_filename` (src lines
2050-2062): the per-index counts summed over the dictionary. -/
def total_invalid (f : YoloFile) : Nat :=
  ((invalid_classes f).map Prod.snd).sum

/-- Modelled from the spec: the YOLO writer (libs/yolo_io.py is not
among the sources) serializes each in-memory shape back to one line,
the class index being the position of its label in the class list. -/
def write_shapes (classes : List String) (shapes : List YShape) :
    List YoloLine :=
  shapes.map fun s =>
    ⟨((classes.indexOf s.label : Nat) : Int), s.cx, s.cy, s.w, s.h⟩

/-- The auto-clean rewrite of `load_yolo_txt_by_filename` (src line
2066): when invalid classes were found, `save_file` immediately
rewrites the annotation file from the in-memory shapes. -/
def autoclean_file (f : YoloFile) : List YoloLine :=
  write_shapes f.classes (get_shapes f)

end Yolo

/-! ## Loading and the dirty flag

From `MainWindow.load_file` (src lines 1294-1405),
`MainWindow.load_labels` (src lines 1013-1053) and
`MainWindow.show_bounding_box_from_annotation_file` (src lines
1413-1436).  Only the dirty-flag skeleton is modelled: the canvas
point-snapping primitive lives in libs/canvas.py and is modelled from
the spec. -/

namespace Loading

/-- Modelled from the spec: `canvas.snap_point_to_canvas`
(libs/canvas.py is not among the sources) clamps a coordinate pair
into `[0, image_width] x [0, image_height]` and reports whether it
moved. -/
def snap_point_to_canvas (w h x y : Int) : Int × Int × Bool :=
  let x2 := max 0 (min x w)
  let y2 := max 0 (min y h)
  (x2, y2, !(x2 == x && y2 == y))

/-- A point lying outside the image bounds. -/
def out_of_bounds (w h : Int) (p : Int × Int) : Bool :=
  p.1 < 0 || p.1 > w || p.2 < 0 || p.2 > h

/-- The dirty effect of the point loop of `MainWindow.load_labels`
(src lines 1015-1026): each snapped point calls `set_dirty`. -/
def load_labels_dirty (w h : Int) (dirty : Bool)
    (shapes : List (List (Int × Int))) : Bool :=
  shapes.foldl
    (fun d pts =>
      pts.foldl (fun d2 p => d2 || (snap_point_to_canvas w h p.1 p.2).2.2) d)
    dirty

/-- The annotation file found next to the image by
`show_bounding_box_from_annotation_file` (src lines 1413-1436) and
what loading it does: no file; a PascalVOC or CreateML file, loaded
through `load_labels` alone; or a YOLO file, loaded through
`load_labels` and followed by the invalid-class auto-clean (src lines
2049-2068): when the reader reported invalid classes (`has_invalid`),
`save_file` immediately rewrites the file, and `save_clean` is the
outcome of that save (`_save_file` reached `set_clean`: truthy path
and no codec error, as in the C1 model). -/
inductive AnnotationLoad where
  | noFile
  | pascalOrCreateML (shapes : List (List (Int × Int)))
  | yoloFile (shapes : List (List (Int × Int))) (has_invalid : Bool)
      (save_clean : Bool)
deriving DecidableEq, Repr

/-- The dirty-flag skeleton of a successful `MainWindow.load_file` on
an image: an eventual label-file load (src line 1360), then
`set_clean` (src line 1361), then the annotation file found next to
the image loaded through its codec (src line 1392 via
`show_bounding_box_from_annotation_file` and `load_labels`).  On the
YOLO path with invalid classes, the auto-clean `save_file` (src line
2066) runs after the snap-induced `set_dirty`; when it completes,
`_save_file` calls `set_clean` again. -/
def load_file_dirty (w h : Int) (dirty0 : Bool)
    (labelfile_shapes : Option (List (List (Int × Int))))
    (ann : AnnotationLoad) : Bool :=
  let d1 :=
    match labelfile_shapes with
    | some ss => load_labels_dirty w h dirty0 ss
    | none => dirty0
  let d2 := false
  match ann with
  | .noFile => d2
  | .pascalOrCreateML ss => load_labels_dirty w h d2 ss
  | .yoloFile ss has_invalid save_clean =>
    let d3 := load_labels_dirty w h d2 ss
    if has_invalid then (if save_clean then false else d3) else d3

end Loading

/-! ## Go-to-image navigation

From `MainWindow.go_to_image` (src lines 1679-1723). -/

namespace Nav

/-- Whitespace as stripped by Python `str.strip`. -/
def is_space (c : Char) : Bool :=
  c = ' ' || c = '\t' || c = '\n' || c = '\r'

/-- Python `text.strip()`: drop whitespace from both ends. -/
def py_strip (s : String) : String :=
  ⟨((s.toList.dropWhile is_space).reverse.dropWhile is_space).reverse⟩

/-- Value of a non-empty all-digit character list. -/
def digits_val (cs : List Char) : Option Nat :=
  if cs ≠ [] ∧ cs.all Char.isDigit then
    some (cs.foldl (fun n c => n * 10 + (c.toNat - 48)) 0)
  else none

/-- Python `int(text)` on the stripped input: optional sign followed by
digits. -/
def parse_int (s : String) : Option Int :=
  match s.toList with
  | [] => none
  | c :: rest =>
    if c = '-' then (digits_val rest).map fun n => -(n : Int)
    else if c = '+' then (digits_val rest).map fun n => (n : Int)
    else (digits_val (c :: rest)).map fun n => (n : Int)

structure NavState where
  go_to_text : String
  img_count : Nat
  cur_img_idx : Nat
  m_img_list : List String
  dirty : Bool
  auto_saving : Bool
  default_save_dir : Option String
  status : String
  loaded_file : Option String
deriving DecidableEq, Repr

/-- `MainWindow.go_to_image` (src lines 1679-1723): strips the input,
rejects empty and non-numeric text, clamps the number into
`[1, img_count]`, runs the auto-save and may_continue gates, then
navigates by index and loads the file.  `may_continue` stands for the
outcome of the unsaved-changes dialog; a truthy filename records the
`load_file` call in `loaded_file` and the input box is cleared. -/
def go_to_image (st : NavState) (may_continue : Bool) : NavState :=
  let image_num_text := py_strip st.go_to_text
  if image_num_text = "" then st
  else
    match parse_int image_num_text with
    | none => { st with status := "Please enter a valid number" }
    | some n =>
      if st.img_count = 0 then { st with status := "No images loaded" }
      else
        let image_num := max 1 (min n (st.img_count : Int))
        let target_idx := (image_num - 1).toNat
        if st.auto_saving && st.default_save_dir == none then st
        else if !may_continue then st
        else
          let st2 := { st with cur_img_idx := target_idx }
          let filename := st2.m_img_list.getD target_idx ""
          if filename ≠ "" then
            { st2 with loaded_file := some filename, go_to_text := "" }
          else st2

end Nav

/-! ## Dictionary lemmas -/

section AssocDictLemmas

variable {α β : Type} [DecidableEq α]

theorem alookup_eq_none {d : List (α × β)} {k : α} :
    alookup d k = none ↔ k ∉ akeys d := by
  induction d with
  | nil => simp [alookup, akeys]
  | cons p rest ih =>
    obtain ⟨a, b⟩ := p
    by_cases hak : a = k
    · subst hak; simp [alookup, akeys]
    · have hka : ¬k = a := fun e => hak e.symm
      simp [alookup, akeys, hak, hka, ih]

theorem alookup_append_self {d : List (α × β)} {k : α} (v : β)
    (h : alookup d k = none) : alookup (d ++ [(k, v)]) k = some v := by
  induction d with
  | nil => simp [alookup]
  | cons p rest ih =>
    obtain ⟨a, b⟩ := p
    by_cases hak : a = k
    · simp [alookup, hak] at h
    · simp [alookup, hak] at h ⊢
      exact ih h

theorem alookup_append_ne {d : List (α × β)} {k : α} (v : β) {j : α}
    (h : j ≠ k) : alookup (d ++ [(k, v)]) j = alookup d j := by
  induction d with
  | nil =>
    have hkj : ¬k = j := fun e => h e.symm
    simp [alookup, hkj]
  | cons p rest ih =>
    obtain ⟨a, b⟩ := p
    by_cases haj : a = j <;> simp [alookup, haj, ih]

theorem ainsert_of_absent {d : List (α × β)} {k : α} (v : β)
    (h : alookup d k = none) : ainsert d k v = d ++ [(k, v)] := by
  induction d with
  | nil => simp [ainsert]
  | cons p rest ih =>
    obtain ⟨a, b⟩ := p
    by_cases hak : a = k
    · simp [alookup, hak] at h
    · simp [alookup, hak] at h
      simp [ainsert, hak, ih h]

theorem akeys_aerase (d : List (α × β)) (k : α) :
    akeys (aerase d k) = (akeys d).erase k := by
  induction d with
  | nil => simp [aerase, akeys]
  | cons p rest ih =>
    obtain ⟨a, b⟩ := p
    by_cases hak : a = k
    · subst hak; simp [aerase, akeys]
    · have hbe : ¬(a == k) := by simp [hak]
      simp only [aerase, if_neg hak, akeys, List.map_cons,
        List.erase_cons_tail hbe]
      simp only [akeys] at ih
      rw [ih]

theorem alookup_aerase_self {d : List (α × β)} {k : α}
    (h : (akeys d).Nodup) : alookup (aerase d k) k = none := by
  induction d with
  | nil => simp [aerase, alookup]
  | cons p rest ih =>
    obtain ⟨a, b⟩ := p
    simp only [akeys, List.map_cons, List.nodup_cons] at h
    by_cases hak : a = k
    · subst hak
      simp only [aerase, if_pos rfl]
      exact alookup_eq_none.2 h.1
    · simp [aerase, alookup, hak]
      exact ih h.2

theorem alookup_aerase_ne {d : List (α × β)} {k j : α} (h : j ≠ k) :
    alookup (aerase d k) j = alookup d j := by
  induction d with
  | nil => simp [aerase]
  | cons p rest ih =>
    obtain ⟨a, b⟩ := p
    by_cases hak : a = k
    · have hkj : ¬k = j := fun e => h e.symm
      simp [aerase, alookup, hak, hkj]
    · by_cases haj : a = j <;> simp [aerase, alookup, hak, haj, ih, h]

theorem aerase_append_self {d : List (α × β)} {k : α} (v : β)
    (h : alookup d k = none) : aerase (d ++ [(k, v)]) k = d := by
  induction d with
  | nil => simp [aerase]
  | cons p rest ih =>
    obtain ⟨a, b⟩ := p
    by_cases hak : a = k
    · simp [alookup, hak] at h
    · simp [alookup, hak] at h
      simp [aerase, hak, ih h]

theorem akeys_append_pair (d : List (α × β)) (k : α) (v : β) :
    akeys (d ++ [(k, v)]) = akeys d ++ [k] := by
  simp [akeys]

end AssocDictLemmas

theorem remove_first_eq_erase (l : List Nat) (a : Nat) :
    remove_first l a = l.erase a := by
  induction l with
  | nil => rfl
  | cons x rest ih =>
    by_cases hxa : x = a
    · subst hxa; simp [remove_first]
    · simp [remove_first, hxa, ih, List.erase_cons_tail, hxa]

namespace Store

/-! ## Store lemmas and the claims about the store -/

theorem add_label_eq (st : LabelStore) (s i : Nat)
    (hs : alookup st.shapes_to_items s = none)
    (hi : alookup st.items_to_shapes i = none) :
    add_label st s i =
      { st with
        items_to_shapes := st.items_to_shapes ++ [(i, s)]
        shapes_to_items := st.shapes_to_items ++ [(s, i)]
        label_list := st.label_list ++ [i] } := by
  simp [add_label, ainsert_of_absent _ hs, ainsert_of_absent _ hi]

theorem inv_add (st : LabelStore) (s i : Nat) (h : Inv st)
    (hs : alookup st.shapes_to_items s = none)
    (hi : alookup st.items_to_shapes i = none) :
    Inv (add_label st s i) := by
  obtain ⟨h1, h2, h3, h4⟩ := h
  rw [add_label_eq st s i hs hi]
  refine ⟨?_, ?_, ?_, ?_⟩
  · rw [akeys_append_pair]
    simp [List.nodup_append, h1]
    exact alookup_eq_none.1 hi
  · rw [akeys_append_pair]
    simp [List.nodup_append, h2]
    exact alookup_eq_none.1 hs
  · intro j t
    by_cases hj : j = i
    · subst hj
      by_cases ht : t = s
      · subst ht
        simp [alookup_append_self _ hi, alookup_append_self _ hs]
      · rw [alookup_append_self _ hi, alookup_append_ne _ ht]
        constructor
        · intro hcon; exact absurd (Option.some.inj hcon) fun e => ht e.symm
        · intro hcon
          have := (h3 j t).2 hcon
          rw [hi] at this; exact absurd this (by simp)
    · by_cases ht : t = s
      · subst ht
        rw [alookup_append_ne _ hj, alookup_append_self _ hs]
        constructor
        · intro hcon
          have := (h3 j t).1 hcon
          rw [hs] at this; exact absurd this (by simp)
        · intro hcon; exact absurd (Option.some.inj hcon) fun e => hj e.symm
      · rw [alookup_append_ne _ hj, alookup_append_ne _ ht]
        exact h3 j t
  · rw [akeys_append_pair, h4]

theorem inv_remove (st st2 : LabelStore) (osh : Option Nat) (h : Inv st)
    (hr : remove_label st osh = .ok st2) : Inv st2 := by
  obtain ⟨h1, h2, h3, h4⟩ := h
  match osh with
  | none =>
    simp [remove_label] at hr
    rw [← hr]; exact ⟨h1, h2, h3, h4⟩
  | some s =>
    simp only [remove_label] at hr
    split at hr
    · exact absurd hr (by simp)
    · rename_i item hlk
      split at hr
      · exact absurd hr (by simp)
      rename_i sval hsval
      have hitem : alookup st.items_to_shapes item = some s := (h3 item s).2 hlk
      simp only [Except.ok.injEq] at hr
      subst hr
      refine ⟨?_, ?_, ?_, ?_⟩
      · rw [akeys_aerase]; exact h1.erase item
      · rw [akeys_aerase]; exact h2.erase s
      · intro j t
        by_cases hj : j = item
        · subst hj
          rw [alookup_aerase_self h1]
          by_cases ht : t = s
          · subst ht; rw [alookup_aerase_self h2]; simp
          · rw [alookup_aerase_ne ht]
            constructor
            · intro hcon; exact absurd hcon (by simp)
            · intro hcon
              have := (h3 j t).2 hcon
              rw [hitem] at this
              exact absurd (Option.some.inj this) fun e => ht e.symm
        · by_cases ht : t = s
          · subst ht
            rw [alookup_aerase_ne hj, alookup_aerase_self h2]
            constructor
            · intro hcon
              have := (h3 j t).1 hcon
              rw [hlk] at this
              exact absurd (Option.some.inj this) fun e => hj e.symm
            · intro hcon; exact absurd hcon (by simp)
          · rw [alookup_aerase_ne hj, alookup_aerase_ne ht]
            exact h3 j t
      · rw [remove_first_eq_erase, akeys_aerase, h4]

theorem inv_add_labels (ps : List (Nat × Nat)) (st : LabelStore) (h : Inv st)
    (hf : FreshAdds st ps) : Inv (add_labels st ps) := by
  induction ps generalizing st with
  | nil => exact h
  | cons p rest ih =>
    obtain ⟨s, i⟩ := p
    obtain ⟨hs, hi, hrest⟩ := hf
    exact ih (add_label st s i) (inv_add st s i h hs hi) hrest

theorem inv_canvas_irrelevant (st : LabelStore) (cs : List Nat) :
    Inv { st with canvas_shapes := cs } ↔ Inv st := Iff.rfl

theorem inv_delete_loop (sel : List Nat) (st st2 : LabelStore) (h : Inv st)
    (hr : delete_shapes_loop st sel = .ok st2) : Inv st2 := by
  induction sel generalizing st with
  | nil =>
    simp [delete_shapes_loop] at hr
    rw [← hr]; exact h
  | cons s rest ih =>
    simp only [delete_shapes_loop] at hr
    by_cases hmem : s ∈ st.canvas_shapes
    · rw [if_pos hmem] at hr
      cases hrl : remove_label { st with canvas_shapes := st.canvas_shapes.erase s } (some s) with
      | error e => rw [hrl] at hr; exact absurd hr (by simp)
      | ok stm =>
        rw [hrl] at hr
        have hm : Inv stm :=
          inv_remove _ _ _ ((inv_canvas_irrelevant st _).2 h) hrl
        exact ih stm hm hr
    · rw [if_neg hmem] at hr
      exact ih st h hr

/-- Claim C6: after every store operation (adding a shape, removing a
shape, loading labels, deleting the selected shapes, pasting) that
completes, the item-to-shape and shape-to-item maps form a bijection
between the current shapes and their list rows: the two maps are
mutually inverse with unique keys and the label rows are exactly the
registered items, so no orphaned entry exists on either side. -/
theorem C6_store_ops_preserve_bijection (st st2 : LabelStore) (op : StoreOp)
    (hInv : Inv st) (hFresh : OpFresh st op)
    (happ : applyOp st op = .ok st2) : Inv st2 := by
  cases op with
  | addLabel s i =>
    simp only [applyOp, Except.ok.injEq] at happ
    subst happ
    exact inv_add st s i hInv hFresh.1 hFresh.2
  | removeLabel osh => exact inv_remove st st2 osh hInv happ
  | loadLabels ps =>
    simp only [applyOp, Except.ok.injEq] at happ
    subst happ
    exact (inv_canvas_irrelevant (add_labels st ps) _).2
      (inv_add_labels ps st hInv hFresh)
  | deleteSelected sel => exact inv_delete_loop sel st st2 hInv happ
  | pasteBoxes ps =>
    simp only [applyOp, Except.ok.injEq] at happ
    subst happ
    exact (inv_canvas_irrelevant (add_labels st ps) _).2
      (inv_add_labels ps st hInv hFresh)

/-- Witness for C6: adding shape 0 with fresh item 1 to the empty store
yields a store satisfying the bijection invariant. -/
theorem C6_store_ops_preserve_bijection_witness :
    Inv ⟨[(1, 0)], [(0, 1)], [1], []⟩ :=
  C6_store_ops_preserve_bijection ⟨[], [], [], []⟩ ⟨[(1, 0)], [(0, 1)], [1], []⟩
    (.addLabel 0 1)
    (by refine ⟨?_, ?_, ?_, rfl⟩ <;> simp [akeys, alookup])
    ⟨rfl, rfl⟩ rfl

/-- Claim C3 (counterexample): remove_label on a shape absent from the
store is not a no-op: at the empty store, removing the (non-None)
shape 0 raises KeyError, modelled as an error result. -/
theorem C3_counterexample :
    remove_label ⟨[], [], [], []⟩ (some 0) = .error () := rfl

/-- Claim C3 (amended): remove_label is a no-op without error only when
the shape is None; for every non-None shape absent from the
shape-to-item index the dictionary lookup raises KeyError (before any
structure is mutated). -/
theorem C3_remove_label_absent (st : LabelStore) (s : Nat)
    (h : alookup st.shapes_to_items s = none) :
    remove_label st none = .ok st ∧ remove_label st (some s) = .error () := by
  refine ⟨rfl, ?_⟩
  simp [remove_label, h]

/-- Witness for the amended C3 at the empty store and shape 5. -/
theorem C3_remove_label_absent_witness :
    remove_label ⟨[], [], [], []⟩ none = .ok ⟨[], [], [], []⟩ ∧
    remove_label ⟨[], [], [], []⟩ (some 5) = .error () :=
  C3_remove_label_absent ⟨[], [], [], []⟩ 5 rfl

/-- Claim C7 (counterexample): from a store that already holds shape 5
under item 0, add_label of shape 5 (with the fresh item 1) followed by
remove_label of shape 5 does not restore the prior store: the original
index entry of shape 5 is lost. -/
theorem C7_counterexample :
    remove_label (add_label ⟨[(0, 5)], [(5, 0)], [0], []⟩ 5 1) (some 5) ≠
      .ok ⟨[(0, 5)], [(5, 0)], [0], []⟩ := by
  intro hcon
  have he : remove_label (add_label ⟨[(0, 5)], [(5, 0)], [0], []⟩ 5 1) (some 5)
      = .ok ⟨[(0, 5)], [], [0], []⟩ := rfl
  rw [he] at hcon
  injection hcon with h2
  exact absurd h2 (by decide)

/-- Claim C7 (amended): when the added shape is not yet registered and
its list item is new (which holds at every call site, where both are
freshly created objects), add_label followed by remove_label of the
same shape restores the entire store to its prior state. -/
theorem C7_add_remove_restores (st : LabelStore) (s i : Nat)
    (hs : alookup st.shapes_to_items s = none)
    (hi : alookup st.items_to_shapes i = none)
    (hl : i ∉ st.label_list) :
    remove_label (add_label st s i) (some s) = .ok st := by
  rw [add_label_eq st s i hs hi]
  have h1 : alookup (st.shapes_to_items ++ [(s, i)]) s = some i :=
    alookup_append_self i hs
  have h2 : alookup (st.items_to_shapes ++ [(i, s)]) i = some s :=
    alookup_append_self s hi
  simp only [remove_label, h1, h2]
  rw [aerase_append_self s hi, aerase_append_self i hs,
    remove_first_eq_erase, List.erase_append_right [i] hl]
  simp

/-- Witness for the amended C7: a concrete fresh add/remove pair on a
one-entry store. -/
theorem C7_add_remove_restores_witness :
    remove_label (add_label ⟨[(0, 7)], [(7, 0)], [0], [7]⟩ 3 1) (some 3) =
      .ok ⟨[(0, 7)], [(7, 0)], [0], [7]⟩ :=
  C7_add_remove_restores ⟨[(0, 7)], [(7, 0)], [0], [7]⟩ 3 1 rfl rfl (by decide)

end Store

namespace Saving

/-! ## Claims about saving -/

/-- Claim C1: for every save of the current image through a non-empty
annotation path: if the codec serialization succeeds the dirty flag is
cleared; if it fails with a codec-level error, an error message is
reported, save_labels returns failure, and the dirty flag is left
unchanged - in particular a failed save never clears a set dirty
flag. -/
theorem C1_save_failure_keeps_dirty (st : SaveState) (path : String)
    (codec : Except String Unit) (hpath : path ≠ "") :
    (codec = .ok () → (save_file_inner st path codec).dirty = false) ∧
    (∀ e, codec = .error e →
      (save_labels st codec).2 = false ∧
      (save_labels st codec).1.messages =
        st.messages ++ ["Error saving label data: " ++ e] ∧
      (save_file_inner st path codec).dirty = st.dirty ∧
      (st.dirty = true → (save_file_inner st path codec).dirty = true)) := by
  constructor
  · intro hc
    subst hc
    simp [save_file_inner, save_labels, set_clean, hpath]
  · intro e hc
    subst hc
    refine ⟨rfl, rfl, ?_, ?_⟩ <;>
      simp [save_file_inner, save_labels, error_message, hpath]

/-- Witness for C1: a successful save on a dirty state ends clean. -/
theorem C1_save_failure_keeps_dirty_witness :
    (save_file_inner ⟨true, []⟩ "img1.xml" (.ok ())).dirty = false :=
  (C1_save_failure_keeps_dirty ⟨true, []⟩ "img1.xml" (.ok ())
    (by decide)).1 rfl

end Saving

namespace Formats

/-! ## Claim about the format cycle -/

/-- Claim C8: change_format moves to the next format of the fixed cycle
PascalVOC to YOLO to CreateML to PascalVOC, changes only the codec and
file suffix used by future saves (the shapes and the saved files are
untouched, nothing is re-saved), and sets the dirty flag to true. -/
theorem C8_change_format_cycle (st : FormatState) :
    change_format st =
      { st with
        label_file_format := next_format st.label_file_format
        suffix := suffix_of (next_format st.label_file_format)
        dirty := true } := by
  obtain ⟨f, suf, d, cs, sf⟩ := st
  cases f <;> rfl

end Formats

namespace Vis

/-! ## Visibility filter lemmas and claim -/

theorem collect_show_all (l : List VisItem) :
    (collect_filter l).1 = true ↔
      ∃ v ∈ l, v.checked = true ∧ v.class_name = "" := by
  induction l with
  | nil => simp [collect_filter]
  | cons v rest ih =>
    by_cases hc : v.checked
    · by_cases hn : v.class_name = ""
      · simp [collect_filter, hc, hn]
      · simp [collect_filter, hc, hn, ih]
    · simp only [Bool.not_eq_true] at hc
      simp [collect_filter, hc, ih]

theorem collect_selected (l : List VisItem)
    (h : (collect_filter l).1 = false) :
    (collect_filter l).2 = checked_names l := by
  induction l with
  | nil => simp [collect_filter, checked_names]
  | cons v rest ih =>
    by_cases hc : v.checked
    · by_cases hn : v.class_name = ""
      · simp [collect_filter, hc, hn] at h
      · simp only [collect_filter, if_pos hc, if_neg hn] at h ⊢
        simp [checked_names, hc, ih h]
    · simp only [Bool.not_eq_true] at hc
      simp [collect_filter, hc] at h ⊢
      simp [checked_names, hc, ih h]

theorem fold_eq_map (sa : Bool) (sel : List String)
    (rows : List (String × Option Nat)) (cs : List CanvasShape) :
    rows.foldl (vis_step sa sel) cs = cs.map (apply_rows sa sel rows) := by
  induction rows generalizing cs with
  | nil => simp [apply_rows]
  | cons row rest ih =>
    obtain ⟨t, osid⟩ := row
    cases osid with
    | none =>
      simp only [List.foldl_cons, vis_step, ih]
      rfl
    | some sid =>
      simp only [List.foldl_cons, vis_step, set_shape_visible, ih,
        List.map_map]
      rfl

theorem apply_rows_keeps_id_label (sa : Bool) (sel : List String)
    (rows : List (String × Option Nat)) (sh : CanvasShape) :
    (apply_rows sa sel rows sh).sid = sh.sid ∧
    (apply_rows sa sel rows sh).label = sh.label := by
  induction rows generalizing sh with
  | nil => exact ⟨rfl, rfl⟩
  | cons row rest ih =>
    obtain ⟨t, osid⟩ := row
    cases osid with
    | none => exact ih sh
    | some sid =>
      by_cases hsid : sh.sid = sid
      · simpa [apply_rows, hsid] using
          ih { sh with visible := sa || sel.contains t }
      · simpa [apply_rows, hsid] using ih sh

theorem apply_rows_visible (sa : Bool) (sel : List String)
    (rows : List (String × Option Nat)) (sh : CanvasShape)
    (hlab : ∀ t sid, (t, some sid) ∈ rows → sh.sid = sid → t = sh.label) :
    (apply_rows sa sel rows sh).visible =
      if rows_match rows sh.sid then sa || sel.contains sh.label
      else sh.visible := by
  induction rows generalizing sh with
  | nil => simp [apply_rows, rows_match]
  | cons row rest ih =>
    obtain ⟨t, osid⟩ := row
    cases osid with
    | none =>
      have h2 : rows_match ((t, none) :: rest) sh.sid = rows_match rest sh.sid := by
        simp [rows_match]
      rw [h2]
      exact ih sh fun t2 sid2 hm => hlab t2 sid2 (List.mem_cons_of_mem _ hm)
    | some sid =>
      by_cases hsid : sh.sid = sid
      · have ht : t = sh.label := hlab t sid (List.mem_cons_self _ _) hsid
        have hm : rows_match ((t, some sid) :: rest) sh.sid = true := by
          simp [rows_match, hsid]
        rw [hm]
        set sh2 : CanvasShape := { sh with visible := sa || sel.contains t }
        have hrec := ih sh2 (fun t2 sid2 hmem heq =>
          hlab t2 sid2 (List.mem_cons_of_mem _ hmem) heq)
        simp only [apply_rows, if_pos hsid]
        rw [hrec]
        by_cases hm2 : rows_match rest sh2.sid
        · simp [hm2, ht]
        · simp [hm2, sh2, ht]
      · have hm : rows_match ((t, some sid) :: rest) sh.sid =
            rows_match rest sh.sid := by
          simp only [rows_match, List.any_cons]
          have : ((t, some sid).2 = some sh.sid) = False := by
            simp; exact fun e => hsid e.symm
          simp [this]
        rw [hm]
        simp only [apply_rows, if_neg hsid]
        exact ih sh fun t2 sid2 hmem heq =>
          hlab t2 sid2 (List.mem_cons_of_mem _ hmem) heq

/-- Claim C4: with the Show All sentinel checked, applying the class
visibility filter makes every shape visible regardless of label; with a
specific set of checked classes, a shape is visible iff its label is in
that set; and applying the filter never adds or removes shapes from the
store.  The hypotheses state that every canvas shape has a label row
(the store bijection) and each row shows its shape label. -/
theorem C4_visibility_filter (st : VisState)
    (hlab : ∀ t sid, (t, some sid) ∈ st.label_items →
      ∀ sh ∈ st.canvas_shapes, sh.sid = sid → t = sh.label)
    (hcover : ∀ sh ∈ st.canvas_shapes,
      rows_match st.label_items sh.sid = true) :
    ((∃ v ∈ st.class_visibility_list, v.checked = true ∧ v.class_name = "") →
      ∀ sh ∈ (class_visibility_changed st).canvas_shapes,
        sh.visible = true) ∧
    ((¬∃ v ∈ st.class_visibility_list, v.checked = true ∧ v.class_name = "") →
      ∀ sh ∈ (class_visibility_changed st).canvas_shapes,
        (sh.visible = true ↔
          sh.label ∈ checked_names st.class_visibility_list)) ∧
    (class_visibility_changed st).canvas_shapes.map
        (fun sh => (sh.sid, sh.label)) =
      st.canvas_shapes.map (fun sh => (sh.sid, sh.label)) := by
  have hfold : (class_visibility_changed st).canvas_shapes =
      st.canvas_shapes.map
        (apply_rows (collect_filter st.class_visibility_list).1
          (collect_filter st.class_visibility_list).2 st.label_items) := by
    simp only [class_visibility_changed]
    exact fold_eq_map _ _ _ _
  refine ⟨?_, ?_, ?_⟩
  · intro hex sh hsh
    rw [hfold] at hsh
    obtain ⟨sh0, hsh0, rfl⟩ := List.mem_map.1 hsh
    have hsa : (collect_filter st.class_visibility_list).1 = true :=
      (collect_show_all _).2 hex
    rw [apply_rows_visible _ _ _ sh0
      (fun t sid hmem heq => hlab t sid hmem sh0 hsh0 heq)]
    rw [hcover sh0 hsh0, hsa]
    simp
  · intro hnex sh hsh
    rw [hfold] at hsh
    obtain ⟨sh0, hsh0, rfl⟩ := List.mem_map.1 hsh
    have hsa : (collect_filter st.class_visibility_list).1 = false := by
      have := (collect_show_all st.class_visibility_list).not.2 hnex
      simpa using this
    have hsel := collect_selected _ hsa
    rw [hsa, hsel]
    rw [apply_rows_visible false (checked_names st.class_visibility_list)
      st.label_items sh0
      (fun t sid hmem heq => hlab t sid hmem sh0 hsh0 heq)]
    rw [hcover sh0 hsh0]
    have hl := (apply_rows_keeps_id_label false
      (checked_names st.class_visibility_list) st.label_items sh0).2
    rw [hl]
    simp [List.contains, List.elem_iff]
  · rw [hfold, List.map_map]
    refine List.map_congr_left fun sh hsh => ?_
    have h := apply_rows_keeps_id_label
      (collect_filter st.class_visibility_list).1
      (collect_filter st.class_visibility_list).2 st.label_items sh
    simp [Function.comp, h.1, h.2]

/-- Witness for C4: one shape labeled C under the checked filter
set containing A and B plus an unchecked Show All row: the shape ends
invisible and the store keeps its single shape. -/
theorem C4_visibility_filter_witness :
    ((∃ v ∈ [VisItem.mk "" false, VisItem.mk "A" true, VisItem.mk "B" true],
        v.checked = true ∧ v.class_name = "") →
      ∀ sh ∈ (class_visibility_changed
          ⟨[⟨"", false⟩, ⟨"A", true⟩, ⟨"B", true⟩], [("C", some 0)],
            [⟨0, "C", true⟩]⟩).canvas_shapes, sh.visible = true) ∧
    ((¬∃ v ∈ [VisItem.mk "" false, VisItem.mk "A" true, VisItem.mk "B" true],
        v.checked = true ∧ v.class_name = "") →
      ∀ sh ∈ (class_visibility_changed
          ⟨[⟨"", false⟩, ⟨"A", true⟩, ⟨"B", true⟩], [("C", some 0)],
            [⟨0, "C", true⟩]⟩).canvas_shapes,
        (sh.visible = true ↔
          sh.label ∈ checked_names
            [VisItem.mk "" false, VisItem.mk "A" true, VisItem.mk "B" true])) ∧
    (class_visibility_changed
        ⟨[⟨"", false⟩, ⟨"A", true⟩, ⟨"B", true⟩], [("C", some 0)],
          [⟨0, "C", true⟩]⟩).canvas_shapes.map (fun sh => (sh.sid, sh.label)) =
      [(⟨0, "C", true⟩ : CanvasShape)].map (fun sh => (sh.sid, sh.label)) :=
  C4_visibility_filter
    ⟨[⟨"", false⟩, ⟨"A", true⟩, ⟨"B", true⟩], [("C", some 0)],
      [⟨0, "C", true⟩]⟩
    (fun t sid hmem sh hsh heq => by
      simp only [List.mem_singleton, Prod.mk.injEq] at hmem
      simp only [List.mem_singleton] at hsh
      subst hsh
      exact hmem.1)
    (by decide)

end Vis

namespace Clip

/-! ## Clipboard lemmas and claim -/

theorem paste_shapes_offset (canvas clip : List BShape) :
    paste_shapes canvas clip false true = clip.map offset_shape := by
  induction clip with
  | nil => rfl
  | cons s rest ih =>
    show offset_shape s :: paste_shapes canvas rest false true =
      offset_shape s :: rest.map offset_shape
    rw [ih]

theorem filterMap_if_guard (p : BShape → Bool) (l : List BShape) :
    (l.filterMap fun s => if p s = true then none else some s) =
      l.filter fun s => !p s := by
  induction l with
  | nil => rfl
  | cons s rest ih =>
    by_cases hp : p s
    · simp [List.filterMap_cons, List.filter_cons, hp, ih]
    · simp [List.filterMap_cons, List.filter_cons, hp, ih]

theorem paste_shapes_dedup (canvas clip : List BShape) :
    paste_shapes canvas clip true false =
      clip.filter fun s => !is_duplicate canvas s := by
  show (clip.filterMap
      fun s => if is_duplicate canvas s = true then none else some s) = _
  exact filterMap_if_guard _ _

theorem filter_split_length (p : BShape → Bool) (l : List BShape) :
    (l.filter fun s => !p s).length + (l.filter p).length = l.length := by
  induction l with
  | nil => rfl
  | cons s rest ih =>
    by_cases hp : p s <;> simp [List.filter_cons, hp] <;> omega

theorem paste_same_eq (st : PasteState) (h1 : st.clipboard ≠ [])
    (hsame : st.clipboard_source_image = st.file_path) :
    paste_selected_boxes st =
      { st with
        canvas_shapes := st.canvas_shapes ++ st.clipboard.map offset_shape
        clipboard := st.clipboard.map offset_shape
        dirty := true
        status := "Pasted " ++ toString st.clipboard.length ++ " box(es)" } := by
  have hbeq : (st.clipboard_source_image == st.file_path) = true := by
    simp [hsame]
  have hpe : (st.clipboard.map offset_shape).isEmpty = false := by
    cases hcl : st.clipboard with
    | nil => exact absurd hcl h1
    | cons a l => simp [hcl]
  simp only [paste_selected_boxes, if_neg h1, hbeq, Bool.not_true,
    paste_shapes_offset, hpe, Bool.not_false, Bool.and_true, if_pos rfl,
    List.length_map, Nat.sub_self]
  simp

theorem paste_diff_eq (st : PasteState) (h1 : st.clipboard ≠ [])
    (hdiff : st.clipboard_source_image ≠ st.file_path) :
    paste_selected_boxes st =
      { st with
        canvas_shapes := st.canvas_shapes ++
          (st.clipboard.filter fun s => !is_duplicate st.canvas_shapes s)
        dirty := true
        status :=
          if st.clipboard.length -
              (st.clipboard.filter
                fun s => !is_duplicate st.canvas_shapes s).length > 0 then
            "Pasted " ++ toString (st.clipboard.filter
                fun s => !is_duplicate st.canvas_shapes s).length ++
              " box(es), skipped " ++
              toString (st.clipboard.length -
                (st.clipboard.filter
                  fun s => !is_duplicate st.canvas_shapes s).length) ++
              " duplicate(s)"
          else
            "Pasted " ++ toString (st.clipboard.filter
                fun s => !is_duplicate st.canvas_shapes s).length ++
              " box(es)" } := by
  have hbeq : (st.clipboard_source_image == st.file_path) = false := by
    simp [hdiff]
  simp only [paste_selected_boxes, if_neg h1, hbeq, Bool.not_false,
    paste_shapes_dedup, Bool.false_and, Bool.not_true, if_neg Bool.false_ne_true]

/-- Claim C2: for every non-empty clipboard, pasting into the image it
was copied from offsets every entry (no duplicate suppression) and
replaces the clipboard with the just-pasted shapes, so a second paste
lands at a further-offset position; pasting into a different image
inserts each entry at its original coordinates, except that entries
duplicating an existing shape (same label, box within tolerance) are
skipped, and the number of skipped duplicates is reported. -/
theorem C2_clipboard_paste (st : PasteState) (h1 : st.clipboard ≠ []) :
    (st.clipboard_source_image = st.file_path →
      (paste_selected_boxes st).canvas_shapes =
        st.canvas_shapes ++ st.clipboard.map offset_shape ∧
      (paste_selected_boxes st).clipboard = st.clipboard.map offset_shape ∧
      (paste_selected_boxes (paste_selected_boxes st)).canvas_shapes =
        st.canvas_shapes ++ st.clipboard.map offset_shape ++
          st.clipboard.map fun s => offset_shape (offset_shape s)) ∧
    (st.clipboard_source_image ≠ st.file_path →
      (paste_selected_boxes st).canvas_shapes =
        st.canvas_shapes ++
          (st.clipboard.filter fun s => !is_duplicate st.canvas_shapes s) ∧
      st.clipboard.length -
          (paste_shapes st.canvas_shapes st.clipboard true false).length =
        (st.clipboard.filter fun s => is_duplicate st.canvas_shapes s).length ∧
      ((st.clipboard.filter
          fun s => is_duplicate st.canvas_shapes s).length > 0 →
        (paste_selected_boxes st).status =
          "Pasted " ++ toString (st.clipboard.filter
              fun s => !is_duplicate st.canvas_shapes s).length ++
            " box(es), skipped " ++
            toString (st.clipboard.filter
              fun s => is_duplicate st.canvas_shapes s).length ++
            " duplicate(s)")) := by
  constructor
  · intro hsame
    have he := paste_same_eq st h1 hsame
    have hne2 : (paste_selected_boxes st).clipboard ≠ [] := by
      rw [he]
      cases hcl : st.clipboard with
      | nil => exact absurd hcl h1
      | cons a l => simp [hcl]
    have hsame2 : (paste_selected_boxes st).clipboard_source_image =
        (paste_selected_boxes st).file_path := by
      rw [he]; exact hsame
    have he2 := paste_same_eq _ hne2 hsame2
    refine ⟨by rw [he], by rw [he], ?_⟩
    rw [he2, he]
    simp [List.map_map, Function.comp]
  · intro hdiff
    have he := paste_diff_eq st h1 hdiff
    have hlen := filter_split_length
      (fun s => is_duplicate st.canvas_shapes s) st.clipboard
    have hcount : st.clipboard.length -
        (paste_shapes st.canvas_shapes st.clipboard true false).length =
        (st.clipboard.filter
          fun s => is_duplicate st.canvas_shapes s).length := by
      rw [paste_shapes_dedup]
      omega
    refine ⟨by rw [he], hcount, ?_⟩
    intro hk
    rw [he]
    have hgt : st.clipboard.length -
        (st.clipboard.filter
          fun s => !is_duplicate st.canvas_shapes s).length > 0 := by
      omega
    have hsk : st.clipboard.length -
        (st.clipboard.filter
          fun s => !is_duplicate st.canvas_shapes s).length =
        (st.clipboard.filter
          fun s => is_duplicate st.canvas_shapes s).length := by
      omega
    simp only [if_pos hgt, hsk]
    rw [if_pos hk]

/-- Witness for C2: the clipboard holding one box copied from img1,
pasted back into img1. -/
theorem C2_clipboard_paste_witness :
    (((some "img1" : Option String) = some "img1") →
      (paste_selected_boxes
          ⟨[⟨"a", 0, 0, 5, 5⟩], some "img1", some "img1",
            [⟨"a", 0, 0, 5, 5⟩], false, ""⟩).canvas_shapes =
        [⟨"a", 0, 0, 5, 5⟩] ++ [(⟨"a", 0, 0, 5, 5⟩ : BShape)].map offset_shape ∧
      (paste_selected_boxes
          ⟨[⟨"a", 0, 0, 5, 5⟩], some "img1", some "img1",
            [⟨"a", 0, 0, 5, 5⟩], false, ""⟩).clipboard =
        [(⟨"a", 0, 0, 5, 5⟩ : BShape)].map offset_shape ∧
      (paste_selected_boxes (paste_selected_boxes
          ⟨[⟨"a", 0, 0, 5, 5⟩], some "img1", some "img1",
            [⟨"a", 0, 0, 5, 5⟩], false, ""⟩)).canvas_shapes =
        [⟨"a", 0, 0, 5, 5⟩] ++ [(⟨"a", 0, 0, 5, 5⟩ : BShape)].map offset_shape ++
          [(⟨"a", 0, 0, 5, 5⟩ : BShape)].map
            fun s => offset_shape (offset_shape s)) ∧
    (((some "img1" : Option String) ≠ some "img1") →
      (paste_selected_boxes
          ⟨[⟨"a", 0, 0, 5, 5⟩], some "img1", some "img1",
            [⟨"a", 0, 0, 5, 5⟩], false, ""⟩).canvas_shapes =
        [⟨"a", 0, 0, 5, 5⟩] ++
          ([(⟨"a", 0, 0, 5, 5⟩ : BShape)].filter
            fun s => !is_duplicate [⟨"a", 0, 0, 5, 5⟩] s) ∧
      ([(⟨"a", 0, 0, 5, 5⟩ : BShape)]).length -
          (paste_shapes [⟨"a", 0, 0, 5, 5⟩] [⟨"a", 0, 0, 5, 5⟩]
            true false).length =
        ([(⟨"a", 0, 0, 5, 5⟩ : BShape)].filter
          fun s => is_duplicate [⟨"a", 0, 0, 5, 5⟩] s).length ∧
      (([(⟨"a", 0, 0, 5, 5⟩ : BShape)].filter
          fun s => is_duplicate [⟨"a", 0, 0, 5, 5⟩] s).length > 0 →
        (paste_selected_boxes
            ⟨[⟨"a", 0, 0, 5, 5⟩], some "img1", some "img1",
              [⟨"a", 0, 0, 5, 5⟩], false, ""⟩).status =
          "Pasted " ++ toString ([(⟨"a", 0, 0, 5, 5⟩ : BShape)].filter
              fun s => !is_duplicate [⟨"a", 0, 0, 5, 5⟩] s).length ++
            " box(es), skipped " ++
            toString ([(⟨"a", 0, 0, 5, 5⟩ : BShape)].filter
              fun s => is_duplicate [⟨"a", 0, 0, 5, 5⟩] s).length ++
            " duplicate(s)")) :=
  C2_clipboard_paste
    ⟨[⟨"a", 0, 0, 5, 5⟩], some "img1", some "img1",
      [⟨"a", 0, 0, 5, 5⟩], false, ""⟩
    (by decide)

end Clip

namespace Yolo

/-! ## YOLO auto-clean lemmas and claim -/

theorem alookup_ainsert_self {d : List (Int × Nat)} (k : Int) (v : Nat) :
    alookup (ainsert d k v) k = some v := by
  induction d with
  | nil => simp [ainsert, alookup]
  | cons p rest ih =>
    obtain ⟨a, b⟩ := p
    by_cases hak : a = k <;> simp [ainsert, alookup, hak, ih]

theorem alookup_ainsert_ne {d : List (Int × Nat)} {k j : Int} (v : Nat)
    (h : j ≠ k) : alookup (ainsert d k v) j = alookup d j := by
  have hkj : ¬k = j := fun e => h e.symm
  induction d with
  | nil => simp [ainsert, alookup, hkj]
  | cons p rest ih =>
    obtain ⟨a, b⟩ := p
    by_cases hak : a = k
    · subst hak
      simp [ainsert, alookup, hkj]
    · by_cases haj : a = j
      · subst haj
        simp [ainsert, alookup, hak]
      · simp [ainsert, alookup, hak, haj, ih]

theorem ainsert_sum {d : List (Int × Nat)} {k : Int} {n : Nat}
    (h : alookup d k = some n) :
    ((ainsert d k (n + 1)).map Prod.snd).sum = (d.map Prod.snd).sum + 1 := by
  induction d with
  | nil => simp [alookup] at h
  | cons p rest ih =>
    obtain ⟨a, b⟩ := p
    by_cases hak : a = k
    · simp only [alookup, if_pos hak] at h
      obtain rfl : b = n := Option.some.inj h
      simp [ainsert, hak]
      omega
    · simp only [alookup, if_neg hak] at h
      simp [ainsert, hak, ih h]
      omega

theorem bump_lookup_self (d : List (Int × Nat)) (k : Int) :
    alookup (bump d k) k = some ((alookup d k).getD 0 + 1) := by
  cases h : alookup d k with
  | none => simp [bump, h, alookup_append_self 1 h]
  | some n => simp [bump, h, alookup_ainsert_self]

theorem bump_lookup_ne (d : List (Int × Nat)) {k j : Int} (h : j ≠ k) :
    alookup (bump d k) j = alookup d j := by
  cases hl : alookup d k with
  | none => simp [bump, hl, alookup_append_ne 1 h]
  | some n => simp [bump, hl, alookup_ainsert_ne _ h]

theorem bump_sum (d : List (Int × Nat)) (k : Int) :
    ((bump d k).map Prod.snd).sum = (d.map Prod.snd).sum + 1 := by
  cases h : alookup d k with
  | none => simp [bump, h]
  | some n => simp [bump, h, ainsert_sum h]

theorem fold_invalid_count (classes : List String) (lines : List YoloLine)
    (d : List (Int × Nat)) (k : Int) :
    (alookup (lines.foldl (fun d2 l =>
        if valid_line classes l then d2 else bump d2 l.classIndex) d) k).getD 0 =
      (alookup d k).getD 0 +
        (lines.filter fun l =>
          !valid_line classes l && l.classIndex == k).length := by
  induction lines generalizing d with
  | nil => simp
  | cons l rest ih =>
    by_cases hv : valid_line classes l
    · simp [List.foldl_cons, hv, List.filter_cons, ih]
    · simp only [Bool.not_eq_true] at hv
      have hnv : ¬valid_line classes l = true := by simp [hv]
      by_cases hk : l.classIndex = k
      · rw [List.foldl_cons, List.filter_cons]
        rw [if_neg hnv]
        rw [if_pos (show (!valid_line classes l && l.classIndex == k) = true
          by simp [hv, hk])]
        rw [ih (bump d l.classIndex)]
        rw [hk, bump_lookup_self]
        simp only [Option.getD_some, List.length_cons]
        omega
      · rw [List.foldl_cons, List.filter_cons]
        rw [if_neg hnv]
        rw [if_neg (show ¬(!valid_line classes l && l.classIndex == k) = true
          by simp [hv, hk])]
        rw [ih (bump d l.classIndex)]
        rw [bump_lookup_ne _ fun e => hk e.symm]

theorem fold_invalid_sum (classes : List String) (lines : List YoloLine)
    (d : List (Int × Nat)) :
    ((lines.foldl (fun d2 l =>
        if valid_line classes l then d2 else bump d2 l.classIndex) d).map
      Prod.snd).sum =
      (d.map Prod.snd).sum +
        (lines.filter fun l => !valid_line classes l).length := by
  induction lines generalizing d with
  | nil => simp
  | cons l rest ih =>
    by_cases hv : valid_line classes l
    · simp [List.foldl_cons, hv, List.filter_cons, ih]
    · simp only [Bool.not_eq_true] at hv
      have hnv : ¬valid_line classes l = true := by simp [hv]
      rw [List.foldl_cons, List.filter_cons]
      rw [if_neg hnv]
      rw [if_pos (show (!valid_line classes l) = true by simp [hv])]
      rw [ih (bump d l.classIndex), bump_sum]
      simp only [List.length_cons]
      omega

theorem filterMap_if_map (p : YoloLine → Bool) (g : YoloLine → YShape)
    (l : List YoloLine) :
    (l.filterMap fun x => if p x = true then some (g x) else none) =
      (l.filter p).map g := by
  induction l with
  | nil => rfl
  | cons x rest ih =>
    by_cases hp : p x
    · simp [List.filterMap_cons, List.filter_cons, hp, ih]
    · simp [List.filterMap_cons, List.filter_cons, hp, ih]

theorem get_shapes_eq (f : YoloFile) :
    get_shapes f = (f.lines.filter (valid_line f.classes)).map
      fun l => (⟨f.classes.getD l.classIndex.toNat "", l.cx, l.cy, l.w, l.h⟩ :
        YShape) := by
  show (f.lines.filterMap fun l => if valid_line f.classes l = true then
      some (⟨f.classes.getD l.classIndex.toNat "", l.cx, l.cy, l.w, l.h⟩ :
        YShape)
    else none) = _
  exact filterMap_if_map (valid_line f.classes) _ f.lines

theorem autoclean_eq (f : YoloFile) (hnd : f.classes.Nodup) :
    autoclean_file f = f.lines.filter (valid_line f.classes) := by
  rw [autoclean_file, write_shapes, get_shapes_eq, List.map_map]
  have hcongr : ∀ l ∈ f.lines.filter (valid_line f.classes),
      ((fun s : YShape =>
          (⟨((f.classes.indexOf s.label : Nat) : Int), s.cx, s.cy, s.w, s.h⟩ :
            YoloLine)) ∘
        fun l : YoloLine =>
          (⟨f.classes.getD l.classIndex.toNat "", l.cx, l.cy, l.w, l.h⟩ :
            YShape)) l = l := by
    intro l hl
    have hv : valid_line f.classes l = true := (List.mem_filter.1 hl).2
    simp only [valid_line, Bool.and_eq_true, decide_eq_true_eq] at hv
    obtain ⟨h0, hlen⟩ := hv
    have hlt : l.classIndex.toNat < f.classes.length := by omega
    have hgd : f.classes.getD l.classIndex.toNat "" =
        f.classes[l.classIndex.toNat] := List.getD_eq_getElem _ _ hlt
    simp only [Function.comp]
    rw [hgd, List.indexOf_getElem hnd]
    have : ((l.classIndex.toNat : Nat) : Int) = l.classIndex :=
      Int.toNat_of_nonneg h0
    cases l
    simp_all
  rw [List.map_congr_left hcongr]
  simp

/-- Claim C9: for every YOLO annotation file containing lines whose
class index lies outside `[0, len(classes))`: reading drops exactly
those lines, the invalid counter groups the dropped lines per offending
index with the reported total equal to their number, the counter is
non-empty (so the user report and the auto-clean fire), and the
immediate rewrite stores the file without the invalid lines. -/
theorem C9_yolo_invalid_class_clean (f : YoloFile) (hnd : f.classes.Nodup)
    (hinv : ∃ l ∈ f.lines, valid_line f.classes l = false) :
    get_shapes f = (f.lines.filter (valid_line f.classes)).map
      (fun l => (⟨f.classes.getD l.classIndex.toNat "", l.cx, l.cy, l.w, l.h⟩ :
        YShape)) ∧
    (∀ k : Int, (alookup (invalid_classes f) k).getD 0 =
      (f.lines.filter fun l =>
        !valid_line f.classes l && l.classIndex == k).length) ∧
    total_invalid f =
      (f.lines.filter fun l => !valid_line f.classes l).length ∧
    invalid_classes f ≠ [] ∧
    autoclean_file f = f.lines.filter (valid_line f.classes) := by
  have hsum : total_invalid f =
      (f.lines.filter fun l => !valid_line f.classes l).length := by
    simpa [total_invalid, invalid_classes] using
      fold_invalid_sum f.classes f.lines []
  refine ⟨get_shapes_eq f, ?_, hsum, ?_, autoclean_eq f hnd⟩
  · intro k
    simpa [invalid_classes, alookup] using
      fold_invalid_count f.classes f.lines [] k
  · intro hempty
    obtain ⟨l, hl, hvl⟩ := hinv
    have hmem : l ∈ f.lines.filter fun l => !valid_line f.classes l :=
      List.mem_filter.2 ⟨hl, by simp [hvl]⟩
    have hpos : 0 < (f.lines.filter fun l =>
        !valid_line f.classes l).length := List.length_pos.2 fun he => by
      rw [he] at hmem; exact List.not_mem_nil l hmem
    rw [← hsum] at hpos
    rw [total_invalid, hempty] at hpos
    simp at hpos

/-- Witness for C9: the file with class list containing only cat and
one valid plus one invalid line reports one dropped object in total. -/
theorem C9_yolo_invalid_class_clean_witness :
    total_invalid ⟨["cat"], [⟨0, 0, 0, 0, 0⟩, ⟨2, 0, 0, 0, 0⟩]⟩ =
      (([⟨0, 0, 0, 0, 0⟩, ⟨2, 0, 0, 0, 0⟩] : List YoloLine).filter
        fun l => !valid_line ["cat"] l).length :=
  (C9_yolo_invalid_class_clean ⟨["cat"], [⟨0, 0, 0, 0, 0⟩, ⟨2, 0, 0, 0, 0⟩]⟩
    (by decide)
    ⟨⟨2, 0, 0, 0, 0⟩, by decide, by decide⟩).2.2.1

end Yolo

namespace Loading

/-! ## Loading lemmas and claim -/

theorem snap_flag_eq_oob (w h : Int) (hw : 0 ≤ w) (hh : 0 ≤ h)
    (p : Int × Int) :
    (snap_point_to_canvas w h p.1 p.2).2.2 = out_of_bounds w h p := by
  simp only [snap_point_to_canvas, out_of_bounds]
  rw [Bool.eq_iff_iff]
  simp only [Bool.not_eq_true', Bool.and_eq_false_iff, beq_eq_false_iff_ne,
    ne_eq, Bool.or_eq_true, decide_eq_true_eq]
  omega

theorem foldl_or_any (g : Int × Int → Bool) (pts : List (Int × Int))
    (d : Bool) :
    pts.foldl (fun d2 p => d2 || g p) d = (d || pts.any g) := by
  induction pts generalizing d with
  | nil => simp
  | cons p rest ih =>
    simp [List.foldl_cons, ih, Bool.or_assoc]

theorem load_labels_dirty_eq (w h : Int) (d : Bool)
    (shapes : List (List (Int × Int))) :
    load_labels_dirty w h d shapes =
      (d || shapes.any fun pts =>
        pts.any fun p => (snap_point_to_canvas w h p.1 p.2).2.2) := by
  induction shapes generalizing d with
  | nil => simp [load_labels_dirty]
  | cons pts rest ih =>
    simp only [load_labels_dirty, List.foldl_cons] at ih ⊢
    rw [ih, foldl_or_any, List.any_cons, Bool.or_assoc]

/-- Claim C5 (counterexample): a successful load of an image whose
PascalVOC annotation file holds an out-of-bounds point ends with
dirty = true, not false: the annotation is loaded after set_clean, the
point is snapped into the canvas, and the snap marks the session
dirty. -/
theorem C5_counterexample :
    load_file_dirty 100 100 false none
      (.pascalOrCreateML [[(-5, 3), (10, 10)]]) = true := rfl

/-- Claim C5 (amended): a successful load completes with dirty = false
when no annotation file is present; on a PascalVOC or CreateML
annotation it completes with dirty = false exactly when no coordinate
lies outside the image bounds (a snapped coordinate leaves
dirty = true so the correction can be saved); on a YOLO annotation the
same holds, except that when the reader found invalid classes and the
immediate auto-clean rewrite completes, its set_clean ends the load
with dirty = false even if coordinates were snapped, while a failed
auto-clean save leaves the snap result. -/
theorem C5_load_dirty_characterization (w h : Int) (hw : 0 ≤ w)
    (hh : 0 ≤ h) (dirty0 : Bool)
    (lf : Option (List (List (Int × Int))))
    (ss : List (List (Int × Int))) (has_invalid save_clean : Bool) :
    load_file_dirty w h dirty0 lf .noFile = false ∧
    load_file_dirty w h dirty0 lf (.pascalOrCreateML ss) =
      (ss.any fun pts => pts.any fun p => out_of_bounds w h p) ∧
    load_file_dirty w h dirty0 lf (.yoloFile ss has_invalid save_clean) =
      (if has_invalid && save_clean then false
       else ss.any fun pts => pts.any fun p => out_of_bounds w h p) := by
  have hfun : (fun p : Int × Int => (snap_point_to_canvas w h p.1 p.2).2.2)
      = fun p : Int × Int => out_of_bounds w h p :=
    funext fun p => snap_flag_eq_oob w h hw hh p
  have hload : load_labels_dirty w h false ss =
      (ss.any fun pts => pts.any fun p => out_of_bounds w h p) := by
    rw [load_labels_dirty_eq, Bool.false_or, hfun]
  refine ⟨rfl, hload, ?_⟩
  show (if has_invalid = true then
      (if save_clean = true then false else load_labels_dirty w h false ss)
    else load_labels_dirty w h false ss) = _
  cases has_invalid <;> cases save_clean <;> simp [hload]

/-- Witness for the amended C5: a 100x100 image with one out-of-bounds
annotation point ends dirty on the PascalVOC path, while the same
shapes on the YOLO invalid-class path with a completed auto-clean save
end clean. -/
theorem C5_load_dirty_characterization_witness :
    load_file_dirty 100 100 false none .noFile = false ∧
    load_file_dirty 100 100 false none (.pascalOrCreateML [[(200, 3)]]) =
      (([[(200, 3)]] : List (List (Int × Int))).any fun pts =>
        pts.any fun p => out_of_bounds 100 100 p) ∧
    load_file_dirty 100 100 false none (.yoloFile [[(200, 3)]] true true) =
      (if true && true then false
       else ([[(200, 3)]] : List (List (Int × Int))).any fun pts =>
         pts.any fun p => out_of_bounds 100 100 p) :=
  C5_load_dirty_characterization 100 100 (by decide) (by decide) false none
    [[(200, 3)]] true true

end Loading

namespace Nav

/-! ## Navigation lemmas and claim -/

theorem parse_int_empty : parse_int "" = none := rfl

/-- Claim C10: while at least one image is loaded (and navigation is
not diverted by the auto-save dialog or a cancelled unsaved-changes
dialog): text parsing as an integer n navigates to the 1-indexed
position min(max(n,1), img_count), whose 0-indexed form is always in
bounds, and loads that image; empty text leaves the state untouched
and non-numeric text leaves the current image and index unchanged. -/
theorem C10_go_to_image_clamps (st : NavState) (mc : Bool)
    (hcount : 1 ≤ st.img_count)
    (hlen : st.m_img_list.length = st.img_count)
    (hauto : st.auto_saving = false ∨ st.default_save_dir ≠ none)
    (hmc : mc = true)
    (hfile : "" ∉ st.m_img_list) :
    (∀ n : Int, parse_int (py_strip st.go_to_text) = some n →
      (go_to_image st mc).cur_img_idx =
        (min (max n 1) (st.img_count : Int) - 1).toNat ∧
      (min (max n 1) (st.img_count : Int) - 1).toNat <
        st.m_img_list.length ∧
      (go_to_image st mc).loaded_file =
        some (st.m_img_list.getD
          ((min (max n 1) (st.img_count : Int) - 1).toNat) "")) ∧
    (py_strip st.go_to_text = "" → go_to_image st mc = st) ∧
    (parse_int (py_strip st.go_to_text) = none →
      (go_to_image st mc).cur_img_idx = st.cur_img_idx ∧
      (go_to_image st mc).loaded_file = st.loaded_file) := by
  have hc0 : ¬st.img_count = 0 := by omega
  have hcond : (st.auto_saving && st.default_save_dir == none) = false := by
    rcases hauto with ha | ha
    · simp [ha]
    · cases hd : st.default_save_dir with
      | none => exact absurd hd ha
      | some v => simp [hd]
  refine ⟨?_, ?_, ?_⟩
  · intro n hp
    have htrim : py_strip st.go_to_text ≠ "" := by
      intro he
      rw [he, parse_int_empty] at hp
      exact Option.noConfusion hp
    have hpos : max 1 (min n (st.img_count : Int)) =
        min (max n 1) (st.img_count : Int) := by omega
    have htb : (min (max n 1) (st.img_count : Int) - 1).toNat <
        st.m_img_list.length := by omega
    have hgd : st.m_img_list.getD
        ((min (max n 1) (st.img_count : Int) - 1).toNat) "" =
        st.m_img_list[(min (max n 1) (st.img_count : Int) - 1).toNat] :=
      List.getD_eq_getElem _ _ htb
    have hne : st.m_img_list.getD
        ((min (max n 1) (st.img_count : Int) - 1).toNat) "" ≠ "" := by
      rw [hgd]
      intro he
      exact hfile (he ▸ List.getElem_mem htb)
    simp only [go_to_image, if_neg htrim, hp, if_neg hc0, hcond,
      Bool.false_eq_true, if_neg (Bool.false_ne_true), hmc, Bool.not_true,
      hpos, if_pos hne]
    exact ⟨rfl, htb, rfl⟩
  · intro he
    simp only [go_to_image, if_pos he]
  · intro hp
    by_cases he : py_strip st.go_to_text = ""
    · simp [go_to_image, he]
    · simp [go_to_image, he, hp]

/-- Witness for C10: three images, input text " 7 " clamps to image 3
(0-indexed 2) and loads it. -/
theorem C10_go_to_image_clamps_witness :
    ((go_to_image ⟨" 7 ", 3, 0, ["a", "b", "c"], false, false, none, "",
        none⟩ true).cur_img_idx =
      (min (max 7 1) ((3 : Nat) : Int) - 1).toNat ∧
    (min (max 7 1) ((3 : Nat) : Int) - 1).toNat <
      (["a", "b", "c"] : List String).length ∧
    (go_to_image ⟨" 7 ", 3, 0, ["a", "b", "c"], false, false, none, "",
        none⟩ true).loaded_file =
      some ((["a", "b", "c"] : List String).getD
        ((min (max 7 1) ((3 : Nat) : Int) - 1).toNat) "")) :=
  (C10_go_to_image_clamps
    ⟨" 7 ", 3, 0, ["a", "b", "c"], false, false, none, "", none⟩ true
    (by decide) (by decide) (Or.inl rfl) rfl (by decide)).1 7 (by decide)

end Nav

end LabelImgProof
